import Mathlib

/-!
Verification of the handler-binding and invocation engine of `www/coroweb.py`
(the `awesome-python3-webapp` dispatch layer).

The embedding models:
* parameter kinds and the signature-classification helpers
  (`get_required_kw_args`, `get_named_kw_args`, `has_named_kw_args`,
  `has_var_kw_arg`, `has_request_arg`),
* Python `dict` semantics as association lists with unique-key overwrite
  (`dinsert`, `dlookup`, `dmem`),
* `urllib.parse.parse_qs(qs, True)` (separator `&`, `keep_blank_values=True`;
  percent-decoding is modelled as the identity, which is exact for the
  query strings the properties below quantify over),
* `RequestHandler.__call__` as `buildArgs` (argument extraction, merge and
  validation, returning either a client-error message or the final argument
  bag, together with the list of warning messages logged) followed by
  `handle` (invocation and result/error normalisation).
-/

set_option autoImplicit false

namespace Coroweb

/-- Python values as they occur in the argument bag: strings (query / form /
path values and JSON strings), other JSON values, and the injected raw
request object. -/
inductive PyVal where
  | vnull
  | vbool (b : Bool)
  | vint (n : Int)
  | vstr (s : String)
  | vlist (xs : List PyVal)
  | vdict (xs : List (String × PyVal))
  | vrequest

/-- `inspect.Parameter.kind`. -/
inductive ParamKind where
  | POSITIONAL_ONLY
  | POSITIONAL_OR_KEYWORD
  | VAR_POSITIONAL
  | KEYWORD_ONLY
  | VAR_KEYWORD
  deriving Repr, DecidableEq

/-- One declared parameter of a Python function: its name, kind, and whether
it has a default value (`param.default != inspect.Parameter.empty`). -/
structure Param where
  name : String
  kind : ParamKind
  hasDefault : Bool
  deriving Repr, DecidableEq

/-! ## Python dict semantics on association lists -/

/-- `k in d` for a Python dict modelled as an association list. -/
def dmem {α : Type} : List (String × α) → String → Bool
  | [], _ => false
  | kv :: t, k => kv.1 = k || dmem t k

/-- `d[k]`: the first binding of `k` (a Python dict has unique keys, so the
first binding is the only one). -/
def dlookup {α : Type} : List (String × α) → String → Option α
  | [], _ => none
  | kv :: t, k => if kv.1 = k then some kv.2 else dlookup t k

/-- `d[k] = v`: overwrite the binding in place when the key exists (keeping
its position, as a Python dict does), otherwise append the new binding at
the end (insertion order). -/
def dinsert {α : Type} : List (String × α) → String → α → List (String × α)
  | [], k, v => [(k, v)]
  | kv :: t, k, v => if kv.1 = k then (k, v) :: t else kv :: dinsert t k v

/-! ## Parameter classification (registration time) -/

/-- `get_required_kw_args(fn)`: keyword-only parameters with no default. -/
def get_required_kw_args (ps : List Param) : List String :=
  (ps.filter (fun p => p.kind == ParamKind.KEYWORD_ONLY && !p.hasDefault)).map
    (fun p => p.name)

/-- `get_named_kw_args(fn)`: all keyword-only parameters. -/
def get_named_kw_args (ps : List Param) : List String :=
  (ps.filter (fun p => p.kind == ParamKind.KEYWORD_ONLY)).map (fun p => p.name)

/-- `has_named_kw_args(fn)` (the Python function returns `True` or `None`;
both uses are boolean tests, so we model it as `Bool`). -/
def has_named_kw_args (ps : List Param) : Bool :=
  ps.any (fun p => p.kind == ParamKind.KEYWORD_ONLY)

/-- `has_var_kw_arg(fn)`. -/
def has_var_kw_arg (ps : List Param) : Bool :=
  ps.any (fun p => p.kind == ParamKind.VAR_KEYWORD)

/-- The message of the `raise` in `has_request_arg`.  (In the source the
format expression `str(sig)` names an undefined variable, so CPython actually
raises `NameError` while building the intended `ValueError`; either way the
call raises and registration aborts, which is all the embedding records.) -/
def requestOrderErr : String :=
  "request parameter must be the last named parameter in function"

/-- Loop body of `has_request_arg`: `found` is the accumulator flag. -/
def hasRequestArgAux : Bool → List Param → Except String Bool
  | found, [] => Except.ok found
  | found, p :: ps =>
    if p.name = "request" then hasRequestArgAux true ps
    else if found
        && !(p.kind == ParamKind.VAR_POSITIONAL
          || p.kind == ParamKind.KEYWORD_ONLY
          || p.kind == ParamKind.VAR_KEYWORD) then
      Except.error requestOrderErr
    else hasRequestArgAux found ps

/-- `has_request_arg(fn)`: detects a parameter named `request` and raises if
any parameter after it is a plain positional parameter. -/
def has_request_arg (ps : List Param) : Except String Bool :=
  hasRequestArgAux false ps

/-- The classification record cached on a `RequestHandler` by `__init__`. -/
structure Classification where
  hasRequestArg : Bool
  hasVarKwArg : Bool
  hasNamedKwArgs : Bool
  namedKwArgs : List String
  requiredKwArgs : List String
  deriving Repr, DecidableEq

/-- `RequestHandler.__init__`: run the classifiers once; fails (configuration
error, fatal at registration) when `has_request_arg` raises. -/
def classify (ps : List Param) : Except String Classification :=
  match has_request_arg ps with
  | Except.error e => Except.error e
  | Except.ok hr =>
    Except.ok
      { hasRequestArg := hr
        hasVarKwArg := has_var_kw_arg ps
        hasNamedKwArgs := has_named_kw_args ps
        namedKwArgs := get_named_kw_args ps
        requiredKwArgs := get_required_kw_args ps }

/-! ## Query-string parsing (`urllib.parse.parse_qs(qs, True)`) -/

/-- `str.split(sep)` for a one-character separator, over the character
list.  `splitOnChar c s` always returns at least one (possibly empty)
group, exactly like Python `split`. -/
def splitOnChar (c : Char) : List Char → List (List Char)
  | [] => [[]]
  | a :: t =>
    if a = c then [] :: splitOnChar c t
    else
      match splitOnChar c t with
      | [] => [[a]]
      | g :: gs => (a :: g) :: gs

/-- `name_value.split('=', 1)`: break a chunk at its first `=`, or `none`
when it has no `=`. -/
def breakEq : List Char → Option (List Char × List Char)
  | [] => none
  | a :: t =>
    if a = '=' then some ([], t)
    else
      match breakEq t with
      | none => none
      | some nv => some (a :: nv.1, nv.2)

/-- Split one `&`-separated chunk at the first `=`.  Empty chunks are skipped;
with `keep_blank_values=True` a chunk without `=` yields the empty-string
value.  Percent-decoding is modelled as the identity. -/
def splitChunk (chunk : List Char) : Option (String × String) :=
  if chunk = [] then none
  else
    match breakEq chunk with
    | none => some (String.mk chunk, "")
    | some nv => some (String.mk nv.1, String.mk nv.2)

/-- `urllib.parse.parse_qsl(qs, True)`. -/
def parse_qsl (qs : String) : List (String × String) :=
  (splitOnChar (Char.ofNat 38) qs.data).filterMap splitChunk

/-- Append `v` to the value list of `k` (first binding), or add a new
singleton group at the end. -/
def dappend : List (String × List String) → String → String → List (String × List String)
  | [], k, v => [(k, [v])]
  | kv :: t, k, v => if kv.1 = k then (kv.1, kv.2 ++ [v]) :: t else kv :: dappend t k v

/-- The grouping loop of `parse_qs`: fold `dappend` over the pair list. -/
def groupPairs : List (String × String) → List (String × List String) →
    List (String × List String)
  | [], d => d
  | kv :: t, d => groupPairs t (dappend d kv.1 kv.2)

/-- `urllib.parse.parse_qs(qs, True)`: group the pair list by key, keys in
first-occurrence order, values in occurrence order. -/
def parse_qs (qs : String) : List (String × List String) :=
  groupPairs (parse_qsl qs) []

/-! ## The request and the handler pipeline -/

inductive Method where
  | GET
  | POST
  deriving Repr, DecidableEq

/-- The transport-decoded request, as `__call__` consumes it.
`content_type = ""` models a falsy/missing content type; `jsonBody` is the
value `await request.json()` would return (consulted only on the JSON
branch); `postForm` is the form multidict of `await request.post()`;
`match_info` is the router's path-variable mapping (unique keys). -/
structure Request where
  method : Method
  content_type : String
  jsonBody : PyVal
  postForm : List (String × String)
  query_string : String
  match_info : List (String × String)

/-- An argument bag: dict from parameter name to value. -/
abbrev Bag := List (String × PyVal)

/-- `self._has_var_kw_arg or self._has_named_kw_args or self._required_kw_args`:
the guard deciding whether Step 1 (body/query decoding) runs at all. -/
def needsData (c : Classification) : Bool :=
  c.hasVarKwArg || c.hasNamedKwArgs || !c.requiredKwArgs.isEmpty

/-- `str.lower()` (ASCII case folding, which is exact for content types). -/
def toLowerStr (s : String) : String :=
  String.mk (s.data.map Char.toLower)

/-- `str.startswith(p)` over the character lists. -/
def startsWithList : List Char → List Char → Bool
  | _, [] => true
  | [], _ :: _ => false
  | a :: t, b :: u => a = b && startsWithList t u

/-- `str.startswith(p)`. -/
def startsWithStr (s p : String) : Bool :=
  startsWithList s.data p.data

/-- A `for k, v in l: kw[k] = f(v)` loop over an association list. -/
def bagOf {α : Type} (f : α → PyVal) : List (String × α) → Bag → Bag
  | [], kw => kw
  | kv :: t, kw => bagOf f t (dinsert kw kv.1 (f kv.2))

/-- The argument bag a non-empty GET query string produces:
`kw[k] = v[0]` over the groups of `parse_qs(qs, True)` (lines 121–126). -/
def queryBag (qs : String) : Bag :=
  bagOf (fun vs => PyVal.vstr (vs.headD "")) (parse_qs qs) []

/-- The argument bag a form-encoded POST body produces: `dict(**params)`. -/
def formBag (form : List (String × String)) : Bag :=
  bagOf PyVal.vstr form []

/-- Step 1 of `__call__` (source selection, lines 97–126): `Except.error`
models an early `return web.HTTPBadRequest(...)`; `Except.ok none` models
`kw` still being `None` afterwards. -/
def step1 (c : Classification) (req : Request) : Except String (Option Bag) :=
  if needsData c then
    match req.method with
    | Method.POST =>
      if req.content_type = "" then Except.error "Missing Content-Type."
      else
        let ct := toLowerStr req.content_type
        if startsWithStr ct "application/json" then
          match req.jsonBody with
          | PyVal.vdict params => Except.ok (some params)
          | _ => Except.error "JSON body must be object."
        else if startsWithStr ct "application/x-www-form-urlencoded"
            || startsWithStr ct "multipart/form-data" then
          Except.ok (some (formBag req.postForm))
        else Except.error ("Unsupported Content-Type: " ++ req.content_type)
    | Method.GET =>
      if req.query_string = "" then Except.ok none
      else Except.ok (some (queryBag req.query_string))
  else Except.ok none

/-- The loop body of bag shrinking: `if name in kw: copy[name] = kw[name]`. -/
def shrinkAux (kw : Bag) : List String → Bag → Bag
  | [], copy => copy
  | name :: t, copy =>
    shrinkAux kw t
      (match dlookup kw name with
       | some v => dinsert copy name v
       | none => copy)

/-- The bag-shrinking loop (lines 132–139): keep only the keys that are
named keyword parameters, in `namedKwArgs` order. -/
def shrinkTo (named : List String) (kw : Bag) : Bag :=
  shrinkAux kw named []

/-- The duplicate-name warning logged at line 143. -/
def dupWarn (k : String) : String :=
  "Duplicate arg name in named arg and kw args: " ++ k

/-- Loop body of the path-variable overlay: warn on a duplicate name, then
overwrite with the path value. -/
def overlayAux : List (String × String) → Bag × List String → Bag × List String
  | [], acc => acc
  | kv :: t, acc =>
    overlayAux t
      (dinsert acc.1 kv.1 (PyVal.vstr kv.2),
       if dmem acc.1 kv.1 then acc.2 ++ [dupWarn kv.1] else acc.2)

/-- The path-variable overlay loop (lines 141–144), also collecting the
warnings it logs. -/
def overlayMatchInfo (mi : List (String × String)) (kw : Bag) :
    Bag × List String :=
  overlayAux mi (kw, [])

/-- Step 2 of `__call__` (lines 127–144): either build the bag from the path
variables alone, or shrink the Step-1 bag (when the function has named
keyword parameters but no `**kw`) and overlay the path variables. -/
def step2 (c : Classification) (req : Request) (kw? : Option Bag) :
    Bag × List String :=
  match kw? with
  | none => (bagOf PyVal.vstr req.match_info [], [])
  | some kw =>
    let kw := if !c.hasVarKwArg && !c.namedKwArgs.isEmpty
      then shrinkTo c.namedKwArgs kw else kw
    overlayMatchInfo req.match_info kw

/-- Step 3 (lines 145–146): inject the raw request object. -/
def step3 (c : Classification) (kw : Bag) : Bag :=
  if c.hasRequestArg then dinsert kw "request" PyVal.vrequest else kw

/-- Step 4 (lines 148–151): the first required name absent from the bag,
if any. -/
def firstMissing (required : List String) (kw : Bag) : Option String :=
  required.find? (fun name => !dmem kw name)

/-- The complete final argument bag (Steps 2 and 3) for a given Step-1
outcome. -/
def finalBag (c : Classification) (req : Request) (kw? : Option Bag) : Bag :=
  step3 c (step2 c req kw?).1

/-- Lines 97–151 of `__call__`: everything before invocation.  Returns the
client-error message or the final bag, paired with the logged warnings. -/
def buildArgs (c : Classification) (req : Request) :
    Except String Bag × List String :=
  match step1 c req with
  | Except.error msg => (Except.error msg, [])
  | Except.ok kw? =>
    let s2 := step2 c req kw?
    let kw := step3 c s2.1
    match firstMissing c.requiredKwArgs kw with
    | some name => (Except.error ("Missing argumeny: " ++ name), s2.2)
    | none => (Except.ok kw, s2.2)

/-- The outcome of `await self._func(**kw)`: a normal return value, a raised
`APIError(error, data, message)`, or any other exception. -/
inductive FnOutcome (ρ : Type) where
  | ok (r : ρ)
  | apiError (error data message : String)
  | exc (e : String)

/-- The value `__call__` produces for the transport: a `web.HTTPBadRequest`
with a message, the target function's return value passed through unchanged,
the `dict(error=..., data=..., message=...)` built from a caught `APIError`,
or an uncaught exception propagating out of `__call__`. -/
inductive HandleResult (ρ : Type) where
  | badRequest (msg : String)
  | resp (r : ρ)
  | apiDict (error data message : String)
  | fault (e : String)

/-- `RequestHandler.__call__` in full: build the argument bag, then invoke
the target function and normalise its outcome (lines 153–157: only
`APIError` is caught).  The second component is the warning log. -/
def handle {ρ : Type} (c : Classification) (fn : Bag → FnOutcome ρ)
    (req : Request) : HandleResult ρ × List String :=
  match buildArgs c req with
  | (Except.error msg, ws) => (HandleResult.badRequest msg, ws)
  | (Except.ok kw, ws) =>
    match fn kw with
    | FnOutcome.ok r => (HandleResult.resp r, ws)
    | FnOutcome.apiError e d m => (HandleResult.apiDict e d m, ws)
    | FnOutcome.exc e => (HandleResult.fault e, ws)

end Coroweb
/-! ## Dictionary lemmas -/

namespace Coroweb

theorem dlookup_dinsert_self {α : Type} (d : List (String × α)) (k : String) (v : α) :
    dlookup (dinsert d k v) k = some v := by
  induction d with
  | nil => simp [dinsert, dlookup]
  | cons kv t ih =>
    by_cases h : kv.1 = k <;> simp [dinsert, dlookup, h, ih]

theorem dlookup_dinsert_ne {α : Type} (d : List (String × α)) (k k2 : String) (v : α)
    (h : k2 ≠ k) : dlookup (dinsert d k v) k2 = dlookup d k2 := by
  have h2 : ¬ (k = k2) := fun e => h e.symm
  induction d with
  | nil => simp [dinsert, dlookup, h2]
  | cons kv t ih =>
    by_cases hk : kv.1 = k
    · simp [dinsert, dlookup, hk, h2]
    · by_cases hk2 : kv.1 = k2 <;> simp [dinsert, dlookup, hk, hk2, h, ih]

theorem dmem_eq_isSome_dlookup {α : Type} (d : List (String × α)) (k : String) :
    dmem d k = (dlookup d k).isSome := by
  induction d with
  | nil => rfl
  | cons kv t ih =>
    by_cases h : kv.1 = k <;> simp [dmem, dlookup, h, ih]

theorem dmem_dinsert_self {α : Type} (d : List (String × α)) (k : String) (v : α) :
    dmem (dinsert d k v) k = true := by
  rw [dmem_eq_isSome_dlookup, dlookup_dinsert_self]; rfl

theorem dmem_dinsert_mono {α : Type} (d : List (String × α)) (k k2 : String) (v : α)
    (h : dmem d k2 = true) : dmem (dinsert d k v) k2 = true := by
  by_cases hk : k2 = k
  · subst hk; exact dmem_dinsert_self d k2 v
  · rw [dmem_eq_isSome_dlookup, dlookup_dinsert_ne d k k2 v hk, ← dmem_eq_isSome_dlookup]
    exact h

theorem dlookup_mem {α : Type} (d : List (String × α)) (k : String) (v : α)
    (h : dlookup d k = some v) : (k, v) ∈ d := by
  induction d with
  | nil => simp [dlookup] at h
  | cons kv t ih =>
    by_cases hk : kv.1 = k
    · simp only [dlookup, hk, if_true, Option.some_inj] at h
      have hkv : kv = (k, v) := by
        rcases kv with ⟨k1, v1⟩
        simp_all
      rw [hkv]
      exact List.mem_cons_self _ _
    · simp only [dlookup, hk, if_false] at h
      exact List.mem_cons_of_mem _ (ih h)

theorem dmem_mem_key {α : Type} (d : List (String × α)) (k : String)
    (h : dmem d k = true) : k ∈ d.map Prod.fst := by
  induction d with
  | nil => simp [dmem] at h
  | cons kv t ih =>
    simp only [dmem, Bool.or_eq_true, decide_eq_true_eq] at h
    rcases h with h | h
    · simp [← h]
    · simp [ih h]

theorem dmem_of_mem {α : Type} (d : List (String × α)) (k : String) (v : α)
    (h : (k, v) ∈ d) : dmem d k = true := by
  induction d with
  | nil => simp at h
  | cons kv t ih =>
    rcases List.mem_cons.mp h with h | h
    · simp [dmem, ← h]
    · simp [dmem, ih h]

theorem dmem_of_mem_key {α : Type} (d : List (String × α)) (k : String)
    (h : k ∈ d.map Prod.fst) : dmem d k = true := by
  induction d with
  | nil => simp at h
  | cons kv t ih =>
    rcases List.mem_cons.mp h with h | h
    · simp [dmem, h]
    · simp [dmem, ih h]

end Coroweb

/-! ## Lemmas about the bag-building loops -/

namespace Coroweb

theorem dmem_dinsert_inv {α : Type} (d : List (String × α)) (k k2 : String) (v : α)
    (h : dmem (dinsert d k v) k2 = true) : k2 = k ∨ dmem d k2 = true := by
  by_cases hk : k2 = k
  · exact Or.inl hk
  · right
    rw [dmem_eq_isSome_dlookup, dlookup_dinsert_ne d k k2 v hk, ← dmem_eq_isSome_dlookup] at h
    exact h

theorem dlookup_bagOf_not_mem {α : Type} (f : α → PyVal) (l : List (String × α))
    (kw : Bag) (k : String) (h : k ∉ l.map Prod.fst) :
    dlookup (bagOf f l kw) k = dlookup kw k := by
  induction l generalizing kw with
  | nil => rfl
  | cons kv t ih =>
    simp only [List.map_cons, List.mem_cons, not_or] at h
    rw [bagOf, ih _ h.2]
    exact dlookup_dinsert_ne kw kv.1 k (f kv.2) h.1

theorem dlookup_bagOf_mem {α : Type} (f : α → PyVal) (l : List (String × α))
    (kw : Bag) (k : String) (v : α) (hnd : (l.map Prod.fst).Nodup)
    (hmem : (k, v) ∈ l) :
    dlookup (bagOf f l kw) k = some (f v) := by
  induction l generalizing kw with
  | nil => simp at hmem
  | cons kv t ih =>
    simp only [List.map_cons, List.nodup_cons] at hnd
    rcases List.mem_cons.mp hmem with h | h
    · subst h
      rw [bagOf, dlookup_bagOf_not_mem f t _ k (by simpa using hnd.1)]
      exact dlookup_dinsert_self kw k (f v)
    · exact ih _ hnd.2 h

theorem dmem_bagOf_mono {α : Type} (f : α → PyVal) (l : List (String × α))
    (kw : Bag) (k : String) (h : dmem kw k = true) :
    dmem (bagOf f l kw) k = true := by
  induction l generalizing kw with
  | nil => exact h
  | cons kv t ih => exact ih _ (dmem_dinsert_mono kw kv.1 k (f kv.2) h)

theorem overlayAux_fst_not_mem (mi : List (String × String)) (acc : Bag × List String)
    (k : String) (h : k ∉ mi.map Prod.fst) :
    dlookup (overlayAux mi acc).1 k = dlookup acc.1 k := by
  induction mi generalizing acc with
  | nil => rfl
  | cons kv t ih =>
    simp only [List.map_cons, List.mem_cons, not_or] at h
    rw [overlayAux, ih _ h.2]
    exact dlookup_dinsert_ne acc.1 kv.1 k (PyVal.vstr kv.2) h.1

theorem overlayAux_fst_mem (mi : List (String × String)) (acc : Bag × List String)
    (k v : String) (hnd : (mi.map Prod.fst).Nodup) (hmem : (k, v) ∈ mi) :
    dlookup (overlayAux mi acc).1 k = some (PyVal.vstr v) := by
  induction mi generalizing acc with
  | nil => simp at hmem
  | cons kv t ih =>
    simp only [List.map_cons, List.nodup_cons] at hnd
    rcases List.mem_cons.mp hmem with h | h
    · subst h
      rw [overlayAux, overlayAux_fst_not_mem t _ k (by simpa using hnd.1)]
      exact dlookup_dinsert_self acc.1 k (PyVal.vstr v)
    · exact ih _ hnd.2 h

theorem overlayAux_snd_mono (mi : List (String × String)) (acc : Bag × List String)
    (w : String) (h : w ∈ acc.2) : w ∈ (overlayAux mi acc).2 := by
  induction mi generalizing acc with
  | nil => exact h
  | cons kv t ih =>
    rw [overlayAux]
    apply ih
    by_cases hm : dmem acc.1 kv.1 <;> simp [hm, h]

theorem overlayAux_warn (mi : List (String × String)) (acc : Bag × List String)
    (k v : String) (hmem : (k, v) ∈ mi) (h : dmem acc.1 k = true) :
    dupWarn k ∈ (overlayAux mi acc).2 := by
  induction mi generalizing acc with
  | nil => simp at hmem
  | cons kv t ih =>
    rcases List.mem_cons.mp hmem with hh | hh
    · subst hh
      rw [overlayAux]
      apply overlayAux_snd_mono
      simp [h]
    · rw [overlayAux]
      exact ih _ hh (dmem_dinsert_mono acc.1 kv.1 k (PyVal.vstr kv.2) h)


theorem overlayAux_fst_dmem_mono (mi : List (String × String)) (acc : Bag × List String)
    (k : String) (h : dmem acc.1 k = true) :
    dmem (overlayAux mi acc).1 k = true := by
  induction mi generalizing acc with
  | nil => exact h
  | cons kv t ih =>
    rw [overlayAux]
    exact ih _ (dmem_dinsert_mono acc.1 kv.1 k (PyVal.vstr kv.2) h)

theorem shrinkAux_not_mem (kw : Bag) (named : List String) (copy : Bag) (n : String)
    (h : n ∉ named) : dlookup (shrinkAux kw named copy) n = dlookup copy n := by
  induction named generalizing copy with
  | nil => rfl
  | cons m t ih =>
    simp only [List.mem_cons, not_or] at h
    rw [shrinkAux, ih _ h.2]
    cases hl : dlookup kw m
    · rfl
    · exact dlookup_dinsert_ne copy m n _ h.1

theorem shrinkAux_preserve (kw : Bag) (named : List String) (copy : Bag) (n : String)
    (v : PyVal) (hkw : dlookup kw n = some v) (hc : dlookup copy n = some v) :
    dlookup (shrinkAux kw named copy) n = some v := by
  induction named generalizing copy with
  | nil => exact hc
  | cons m t ih =>
    rw [shrinkAux]
    by_cases hm : m = n
    · subst hm
      rw [hkw]
      exact ih _ (dlookup_dinsert_self copy m v)
    · cases hl : dlookup kw m
      · exact ih _ hc
      · exact ih _ (by rw [dlookup_dinsert_ne copy m n _ (fun e => hm e.symm)]; exact hc)

theorem shrinkAux_mem (kw : Bag) (named : List String) (copy : Bag) (n : String)
    (v : PyVal) (hn : n ∈ named) (hkw : dlookup kw n = some v) :
    dlookup (shrinkAux kw named copy) n = some v := by
  induction named generalizing copy with
  | nil => simp at hn
  | cons m t ih =>
    rw [shrinkAux]
    by_cases hm : m = n
    · subst hm
      rw [hkw]
      exact shrinkAux_preserve kw t _ m v hkw (dlookup_dinsert_self copy m v)
    · rcases List.mem_cons.mp hn with h | h
      · exact absurd h.symm hm
      · cases hl : dlookup kw m
        · exact ih _ h
        · exact ih _ h


theorem shrinkAux_keys (kw : Bag) (named : List String) (copy : Bag) (n : String)
    (h : dmem (shrinkAux kw named copy) n = true) : n ∈ named ∨ dmem copy n = true := by
  induction named generalizing copy with
  | nil => exact Or.inr h
  | cons m t ih =>
    rw [shrinkAux] at h
    rcases ih _ h with hh | hh
    · exact Or.inl (List.mem_cons_of_mem _ hh)
    · revert hh
      cases hl : dlookup kw m
      · exact fun hh => Or.inr hh
      · intro hh
        rcases dmem_dinsert_inv copy m n _ hh with he | he
        · exact Or.inl (by simp [he])
        · exact Or.inr he

end Coroweb

/-! ## Query-string grouping lemmas -/

namespace Coroweb

/-- All values carried by key `k` in a pair list, in occurrence order. -/
def valuesOf (ps : List (String × String)) (k : String) : List String :=
  (ps.filter (fun kv => kv.1 == k)).map Prod.snd

theorem valuesOf_nil (k : String) : valuesOf [] k = [] := rfl

theorem valuesOf_cons (kv : String × String) (t : List (String × String)) (k : String) :
    valuesOf (kv :: t) k = if kv.1 = k then kv.2 :: valuesOf t k else valuesOf t k := by
  by_cases h : kv.1 = k <;> simp [valuesOf, h]

theorem dlookup_eq_head_valuesOf (ps : List (String × String)) (k : String) :
    dlookup ps k = (valuesOf ps k).head? := by
  induction ps with
  | nil => rfl
  | cons kv t ih =>
    rw [valuesOf_cons]
    by_cases h : kv.1 = k <;> simp [dlookup, h, ih]

theorem dlookup_dappend_self (d : List (String × List String)) (k v : String)
    (l : List String) (h : dlookup d k = some l) :
    dlookup (dappend d k v) k = some (l ++ [v]) := by
  induction d with
  | nil => simp [dlookup] at h
  | cons kv t ih =>
    by_cases hk : kv.1 = k
    · simp only [dlookup, hk, if_true, Option.some_inj] at h
      simp [dappend, dlookup, hk, h]
    · simp only [dlookup, hk, if_false] at h
      simp [dappend, dlookup, hk, ih h]

theorem dlookup_dappend_none (d : List (String × List String)) (k v : String)
    (h : dlookup d k = none) : dlookup (dappend d k v) k = some [v] := by
  induction d with
  | nil => simp [dappend, dlookup]
  | cons kv t ih =>
    by_cases hk : kv.1 = k
    · simp [dlookup, hk] at h
    · simp only [dlookup, hk, if_false] at h
      simp [dappend, dlookup, hk, ih h]

theorem dlookup_dappend_ne (d : List (String × List String)) (k k2 v : String)
    (h : k2 ≠ k) : dlookup (dappend d k v) k2 = dlookup d k2 := by
  have h2 : ¬ (k = k2) := fun e => h e.symm
  induction d with
  | nil => simp [dappend, dlookup, h2]
  | cons kv t ih =>
    by_cases hk : kv.1 = k
    · have hk2 : ¬ kv.1 = k2 := by rw [hk]; exact h2
      simp [dappend, dlookup, hk, hk2, h2]
    · by_cases hk2 : kv.1 = k2 <;> simp [dappend, dlookup, hk, hk2, h, ih]

theorem dlookup_groupPairs_some (ps : List (String × String))
    (d : List (String × List String)) (k : String) (l : List String)
    (h : dlookup d k = some l) :
    dlookup (groupPairs ps d) k = some (l ++ valuesOf ps k) := by
  induction ps generalizing d l with
  | nil => simp [groupPairs, valuesOf_nil, h]
  | cons kv t ih =>
    rw [groupPairs, valuesOf_cons]
    by_cases hk : kv.1 = k
    · rw [if_pos hk]
      have h2 : dlookup (dappend d kv.1 kv.2) k = some (l ++ [kv.2]) := by
        rw [hk]; exact dlookup_dappend_self d k kv.2 l h
      rw [ih _ _ h2, List.append_assoc]
      rfl
    · rw [if_neg hk]
      apply ih
      rw [dlookup_dappend_ne d kv.1 k kv.2 (fun e => hk e.symm)]
      exact h

theorem dlookup_groupPairs_none (ps : List (String × String))
    (d : List (String × List String)) (k : String)
    (h : dlookup d k = none) :
    dlookup (groupPairs ps d) k =
      if valuesOf ps k = [] then none else some (valuesOf ps k) := by
  induction ps generalizing d with
  | nil => simp [groupPairs, valuesOf_nil, h]
  | cons kv t ih =>
    rw [groupPairs, valuesOf_cons]
    by_cases hk : kv.1 = k
    · rw [if_pos hk]
      have h2 : dlookup (dappend d kv.1 kv.2) k = some [kv.2] := by
        rw [hk]; exact dlookup_dappend_none d k kv.2 h
      rw [dlookup_groupPairs_some t _ k [kv.2] h2]
      simp
    · rw [if_neg hk]
      apply ih
      rw [dlookup_dappend_ne d kv.1 k kv.2 (fun e => hk e.symm)]
      exact h

theorem dappend_keys (d : List (String × List String)) (k v : String) :
    (dappend d k v).map Prod.fst =
      if dmem d k then d.map Prod.fst else d.map Prod.fst ++ [k] := by
  induction d with
  | nil => simp [dappend, dmem]
  | cons kv t ih =>
    by_cases hk : kv.1 = k
    · simp [dappend, dmem, hk]
    · simp only [dappend, hk, if_false, List.map_cons, dmem]
      rw [ih]
      by_cases hm : dmem t k <;> simp [hm, hk]

theorem groupPairs_keys_nodup (ps : List (String × String))
    (d : List (String × List String)) (h : (d.map Prod.fst).Nodup) :
    ((groupPairs ps d).map Prod.fst).Nodup := by
  induction ps generalizing d with
  | nil => exact h
  | cons kv t ih =>
    rw [groupPairs]
    apply ih
    rw [dappend_keys]
    by_cases hm : dmem d kv.1
    · simp [hm, h]
    · have hgoal : (List.map Prod.fst d ++ [kv.1]).Nodup := by
        rw [List.nodup_append]
        refine ⟨h, List.nodup_singleton _, ?_⟩
        intro a ha hb
        simp only [List.mem_singleton] at hb
        subst hb
        exact hm (dmem_of_mem_key d kv.1 ha)
      simpa [hm] using hgoal

/-- The central query-string fact: the value `__call__` binds for key `k`
is the **first** occurrence of `k` in the parsed pair list (`dlookup` on the
pair list is first-match by definition). -/
theorem dlookup_queryBag (qs : String) (k : String) :
    dlookup (queryBag qs) k = (dlookup (parse_qsl qs) k).map PyVal.vstr := by
  unfold queryBag parse_qs
  cases hg : dlookup (groupPairs (parse_qsl qs) []) k with
  | none =>
    have hk : k ∉ (groupPairs (parse_qsl qs) []).map Prod.fst := by
      intro hmem
      have := dmem_of_mem_key _ _ hmem
      rw [dmem_eq_isSome_dlookup, hg] at this
      exact Bool.noConfusion this
    rw [dlookup_bagOf_not_mem _ _ _ _ hk]
    have hnone : dlookup ([] : List (String × List String)) k = none := rfl
    rw [dlookup_groupPairs_none (parse_qsl qs) [] k hnone] at hg
    by_cases hv : valuesOf (parse_qsl qs) k = []
    · rw [dlookup_eq_head_valuesOf, hv]
      rfl
    · rw [if_neg hv] at hg
      exact Option.noConfusion hg
  | some vs =>
    have hmem := dlookup_mem _ _ _ hg
    have hnd := groupPairs_keys_nodup (parse_qsl qs) [] (by simp)
    rw [dlookup_bagOf_mem _ _ _ _ _ hnd hmem]
    have hnone : dlookup ([] : List (String × List String)) k = none := rfl
    rw [dlookup_groupPairs_none (parse_qsl qs) [] k hnone] at hg
    by_cases hv : valuesOf (parse_qsl qs) k = []
    · rw [if_pos hv] at hg
      exact Option.noConfusion hg
    · rw [if_neg hv] at hg
      have hvs : vs = valuesOf (parse_qsl qs) k := by
        exact (Option.some_inj.mp hg).symm
      rw [dlookup_eq_head_valuesOf, hvs]
      cases hvv : valuesOf (parse_qsl qs) k with
      | nil => exact absurd hvv hv
      | cons a t => simp [List.headD]

end Coroweb

/-! ## Lemmas about `has_request_arg` and the pipeline plumbing -/

namespace Coroweb

theorem hasRequestArgAux_skip_pre (pre rest : List Param)
    (h : ∀ p ∈ pre, p.name ≠ "request") :
    hasRequestArgAux false (pre ++ rest) = hasRequestArgAux false rest := by
  induction pre with
  | nil => rfl
  | cons p t ih =>
    rw [List.cons_append, hasRequestArgAux]
    have hp : ¬ (p.name = "request") := h p (List.mem_cons_self _ _)
    rw [if_neg hp]
    simp only [Bool.false_and, Bool.false_eq_true, if_false]
    exact ih (fun q hq => h q (List.mem_cons_of_mem _ hq))

theorem hasRequestArgAux_found_ok (ps : List Param)
    (h : ∀ p ∈ ps, p.name = "request" ∨ p.kind = ParamKind.VAR_POSITIONAL
      ∨ p.kind = ParamKind.KEYWORD_ONLY ∨ p.kind = ParamKind.VAR_KEYWORD) :
    hasRequestArgAux true ps = Except.ok true := by
  induction ps with
  | nil => rfl
  | cons p t ih =>
    rw [hasRequestArgAux]
    rcases h p (List.mem_cons_self _ _) with hn | hk | hk | hk
    · rw [if_pos hn]
      exact ih (fun q hq => h q (List.mem_cons_of_mem _ hq))
    all_goals {
      by_cases hn : p.name = "request"
      · rw [if_pos hn]
        exact ih (fun q hq => h q (List.mem_cons_of_mem _ hq))
      · rw [if_neg hn]
        rw [hk]
        simp only [Bool.true_and]
        norm_num
        exact ih (fun q hq => h q (List.mem_cons_of_mem _ hq))
    }

theorem hasRequestArgAux_found_error (ps : List Param)
    (h : ∃ q ∈ ps, (q.kind = ParamKind.POSITIONAL_ONLY
      ∨ q.kind = ParamKind.POSITIONAL_OR_KEYWORD) ∧ q.name ≠ "request") :
    hasRequestArgAux true ps = Except.error requestOrderErr := by
  induction ps with
  | nil => simp at h
  | cons p t ih =>
    rcases h with ⟨q, hq, hqk, hqn⟩
    rw [hasRequestArgAux]
    by_cases hn : p.name = "request"
    · rw [if_pos hn]
      apply ih
      refine ⟨q, ?_, hqk, hqn⟩
      rcases List.mem_cons.mp hq with he | he
      · exact absurd (he ▸ hn) hqn
      · exact he
    · rw [if_neg hn]
      by_cases hp : p.kind = ParamKind.POSITIONAL_ONLY ∨ p.kind = ParamKind.POSITIONAL_OR_KEYWORD
      · rcases hp with hp | hp <;> simp [hp]
      · push_neg at hp
        have hall : (p.kind == ParamKind.VAR_POSITIONAL
            || p.kind == ParamKind.KEYWORD_ONLY
            || p.kind == ParamKind.VAR_KEYWORD) = true := by
          cases hpk : p.kind <;> simp_all
        rw [hall]
        simp only [Bool.not_true, Bool.true_and, Bool.false_eq_true, if_false]
        apply ih
        refine ⟨q, ?_, hqk, hqn⟩
        rcases List.mem_cons.mp hq with he | he
        · subst he
          rcases hqk with hk | hk
          · exact absurd hk hp.1
          · exact absurd hk hp.2
        · exact he

theorem buildArgs_step1_error (c : Classification) (req : Request) (msg : String)
    (h : step1 c req = Except.error msg) : buildArgs c req = (Except.error msg, []) := by
  simp [buildArgs, h]

theorem buildArgs_step1_ok_none (c : Classification) (req : Request) (kw? : Option Bag)
    (h : step1 c req = Except.ok kw?)
    (hm : firstMissing c.requiredKwArgs (finalBag c req kw?) = none) :
    buildArgs c req = (Except.ok (finalBag c req kw?), (step2 c req kw?).2) := by
  simp only [buildArgs, h, finalBag] at *
  rw [hm]

theorem buildArgs_step1_ok_missing (c : Classification) (req : Request) (kw? : Option Bag)
    (name : String) (h : step1 c req = Except.ok kw?)
    (hm : firstMissing c.requiredKwArgs (finalBag c req kw?) = some name) :
    buildArgs c req = (Except.error ("Missing argumeny: " ++ name), (step2 c req kw?).2) := by
  simp only [buildArgs, h, finalBag] at *
  rw [hm]

theorem handle_badRequest {ρ : Type} (c : Classification) (fn : Bag → FnOutcome ρ)
    (req : Request) (msg : String) (ws : List String)
    (h : buildArgs c req = (Except.error msg, ws)) :
    handle c fn req = (HandleResult.badRequest msg, ws) := by
  simp [handle, h]

theorem handle_ok {ρ : Type} (c : Classification) (fn : Bag → FnOutcome ρ)
    (req : Request) (kw : Bag) (ws : List String) (r : ρ)
    (h : buildArgs c req = (Except.ok kw, ws)) (hf : fn kw = FnOutcome.ok r) :
    handle c fn req = (HandleResult.resp r, ws) := by
  simp [handle, h, hf]

theorem handle_apiError {ρ : Type} (c : Classification) (fn : Bag → FnOutcome ρ)
    (req : Request) (kw : Bag) (ws : List String) (e d m : String)
    (h : buildArgs c req = (Except.ok kw, ws)) (hf : fn kw = FnOutcome.apiError e d m) :
    handle c fn req = (HandleResult.apiDict e d m, ws) := by
  simp [handle, h, hf]

theorem handle_exc {ρ : Type} (c : Classification) (fn : Bag → FnOutcome ρ)
    (req : Request) (kw : Bag) (ws : List String) (e : String)
    (h : buildArgs c req = (Except.ok kw, ws)) (hf : fn kw = FnOutcome.exc e) :
    handle c fn req = (HandleResult.fault e, ws) := by
  simp [handle, h, hf]

theorem step1_get (c : Classification) (req : Request)
    (h1 : needsData c = true) (h2 : req.method = Method.GET)
    (h3 : req.query_string ≠ "") :
    step1 c req = Except.ok (some (queryBag req.query_string)) := by
  unfold step1
  rw [h1, h2]
  simp [h3]

end Coroweb

/-! ## Concrete fixtures -/

namespace Coroweb

/-- The signature of `f(id, *, title, content=None)`. -/
def postBlogSig : List Param :=
  [{ name := "id", kind := ParamKind.POSITIONAL_OR_KEYWORD, hasDefault := false },
   { name := "title", kind := ParamKind.KEYWORD_ONLY, hasDefault := false },
   { name := "content", kind := ParamKind.KEYWORD_ONLY, hasDefault := true }]

/-- The classification `RequestHandler.__init__` computes for `postBlogSig`. -/
def postBlogClass : Classification :=
  { hasRequestArg := false, hasVarKwArg := false, hasNamedKwArgs := true,
    namedKwArgs := ["title", "content"], requiredKwArgs := ["title"] }

/-- `POST /post/42` with JSON body `{"title": "T"}` and path variable
`id = "42"`. -/
def postBlogReq : Request :=
  { method := Method.POST, content_type := "application/json",
    jsonBody := PyVal.vdict [("title", PyVal.vstr "T")], postForm := [],
    query_string := "", match_info := [("id", "42")] }

/-! ## Claims -/

/-- C1: registering `f(id, *, title, content=None)` under `POST /post/{id}`
and dispatching JSON body `{"title":"T"}` with path variable `id="42"`
invokes `f` with exactly the bag `{title: "T", id: "42"}` (the value of
`buildArgs`, which has exactly those two bindings), and `f`'s return value
is passed through unchanged. -/
theorem claim_C1 {ρ : Type} (fn : Bag → FnOutcome ρ) (r : ρ)
    (hf : fn [("title", PyVal.vstr "T"), ("id", PyVal.vstr "42")] = FnOutcome.ok r) :
    classify postBlogSig = Except.ok postBlogClass ∧
    buildArgs postBlogClass postBlogReq =
      (Except.ok [("title", PyVal.vstr "T"), ("id", PyVal.vstr "42")], []) ∧
    handle postBlogClass fn postBlogReq = (HandleResult.resp r, []) :=
  ⟨rfl, rfl,
    handle_ok postBlogClass fn postBlogReq
      [("title", PyVal.vstr "T"), ("id", PyVal.vstr "42")] [] r rfl hf⟩

theorem claim_C1_witness :
    classify postBlogSig = Except.ok postBlogClass ∧
    buildArgs postBlogClass postBlogReq =
      (Except.ok [("title", PyVal.vstr "T"), ("id", PyVal.vstr "42")], []) ∧
    handle postBlogClass (fun _ => FnOutcome.ok (0 : Nat)) postBlogReq =
      (HandleResult.resp 0, []) :=
  claim_C1 (fun _ => FnOutcome.ok (0 : Nat)) 0 rfl

/-- C5: on a POST whose (lowercased) content type starts with
`application/json` and whose body is not a JSON object, `__call__` returns
the client error `JSON body must be object.` and never invokes the target
function (for every `fn` alike); when the body is a JSON object, that
object becomes the argument bag directly.  The `needsData` hypothesis is
the source's Step-1 guard (line 99): body decoding only happens for
functions that declare keyword-style parameters. -/
theorem claim_C5 (c : Classification) (req : Request)
    (h1 : needsData c = true) (h2 : req.method = Method.POST)
    (h3 : req.content_type ≠ "")
    (h4 : startsWithStr (toLowerStr req.content_type) "application/json" = true) :
    ((∀ ps, req.jsonBody ≠ PyVal.vdict ps) →
      ∀ (ρ : Type) (fn : Bag → FnOutcome ρ),
        handle c fn req = (HandleResult.badRequest "JSON body must be object.", [])) ∧
    (∀ ps, req.jsonBody = PyVal.vdict ps → step1 c req = Except.ok (some ps)) := by
  constructor
  · intro hnd ρ fn
    have hs : step1 c req = Except.error "JSON body must be object." := by
      unfold step1
      rw [h1, h2]
      cases hb : req.jsonBody
      case vdict ps => exact absurd hb (hnd ps)
      all_goals simp [h3, h4]
    exact handle_badRequest c fn req _ [] (buildArgs_step1_error c req _ hs)
  · intro ps hps
    unfold step1
    rw [h1, h2, hps]
    simp [h3, h4]

/-- A POST with content type `application/json` whose body is the JSON
array `[1, 2, 3]`. -/
def jsonArrayReq : Request :=
  { method := Method.POST, content_type := "application/json",
    jsonBody := PyVal.vlist [PyVal.vint 1, PyVal.vint 2, PyVal.vint 3],
    postForm := [], query_string := "", match_info := [] }

theorem claim_C5_witness :
    handle postBlogClass (fun _ => FnOutcome.ok PyVal.vnull) jsonArrayReq =
      (HandleResult.badRequest "JSON body must be object.", []) :=
  (claim_C5 postBlogClass jsonArrayReq rfl rfl (by decide) rfl).1
    (fun ps h => PyVal.noConfusion h) PyVal (fun _ => FnOutcome.ok PyVal.vnull)

/-- C6: lines 153–157 catch exactly `APIError`: an `APIError(e, d, m)`
raised by the target function becomes the normal response
`dict(error=e, data=d, message=m)`, while an exception of any other type
propagates out of `__call__` uncaught (modelled by `FnOutcome.exc`,
which `handle` turns into a propagating `fault`, never a response). -/
theorem claim_C6 {ρ : Type} (c : Classification) (req : Request)
    (fn : Bag → FnOutcome ρ) (kw : Bag) (ws : List String)
    (h : buildArgs c req = (Except.ok kw, ws)) :
    (∀ e d m, fn kw = FnOutcome.apiError e d m →
      handle c fn req = (HandleResult.apiDict e d m, ws)) ∧
    (∀ e, fn kw = FnOutcome.exc e → handle c fn req = (HandleResult.fault e, ws)) :=
  ⟨fun e d m hf => handle_apiError c fn req kw ws e d m h hf,
   fun e hf => handle_exc c fn req kw ws e h hf⟩

theorem claim_C6_witness :
    handle postBlogClass
        (fun _ => FnOutcome.apiError (ρ := Nat) "403" "forbidden" "no access")
        postBlogReq =
      (HandleResult.apiDict "403" "forbidden" "no access", []) :=
  (claim_C6 postBlogClass postBlogReq
      (fun _ => FnOutcome.apiError "403" "forbidden" "no access")
      [("title", PyVal.vstr "T"), ("id", PyVal.vstr "42")] [] rfl).1
    "403" "forbidden" "no access" rfl

end Coroweb

namespace Coroweb

theorem string_append_left_cancel (p a b : String) (h : p ++ a = p ++ b) : a = b := by
  have hd := congrArg String.data h
  rw [String.data_append, String.data_append] at hd
  exact String.ext (List.append_cancel_left hd)

/-- C4: with Step 1 successful, the required-argument check (lines 148–151)
depends only on membership in the final merged bag: `firstMissing` is `none`
exactly when every required name is present (from body, query or path
indifferently); when some required name is absent, `__call__` returns the
client error naming the first missing one and never invokes the target
function (for every `fn` alike); when none is missing, the target function
is invoked with the final bag. -/
theorem claim_C4 (c : Classification) (req : Request) (kw? : Option Bag) (name : String)
    (h : step1 c req = Except.ok kw?) :
    (firstMissing c.requiredKwArgs (finalBag c req kw?) = none ↔
      ∀ n ∈ c.requiredKwArgs, dmem (finalBag c req kw?) n = true) ∧
    (firstMissing c.requiredKwArgs (finalBag c req kw?) = some name →
      name ∈ c.requiredKwArgs ∧ dmem (finalBag c req kw?) name = false ∧
      ∀ (ρ : Type) (fn : Bag → FnOutcome ρ),
        handle c fn req =
          (HandleResult.badRequest ("Missing argumeny: " ++ name), (step2 c req kw?).2)) ∧
    (firstMissing c.requiredKwArgs (finalBag c req kw?) = none →
      ∀ (ρ : Type) (fn : Bag → FnOutcome ρ) (r : ρ),
        fn (finalBag c req kw?) = FnOutcome.ok r →
        handle c fn req = (HandleResult.resp r, (step2 c req kw?).2)) := by
  refine ⟨?_, ?_, ?_⟩
  · unfold firstMissing
    rw [List.find?_eq_none]
    constructor
    · intro hall n hn
      have := hall n hn
      simpa using this
    · intro hall n hn
      simp [hall n hn]
  · intro hfm
    have hfm2 : List.find? (fun n => !dmem (finalBag c req kw?) n) c.requiredKwArgs
        = some name := hfm
    have hmem := List.mem_of_find?_eq_some hfm2
    have hp := List.find?_some hfm2
    simp only [Bool.not_eq_true'] at hp
    refine ⟨hmem, hp, ?_⟩
    intro ρ fn
    exact handle_badRequest c fn req _ _ (buildArgs_step1_ok_missing c req kw? name h hfm)
  · intro hfm ρ fn r hf
    exact handle_ok c fn req _ _ r (buildArgs_step1_ok_none c req kw? h hfm) hf

/-- `GET /...?x=1` for a function requiring `title`: nothing supplies it. -/
def req4 : Request :=
  { method := Method.GET, content_type := "", jsonBody := PyVal.vnull,
    postForm := [], query_string := "x=1", match_info := [] }

theorem claim_C4_witness :
    handle postBlogClass (fun _ => FnOutcome.ok (0 : Nat)) req4 =
      (HandleResult.badRequest "Missing argumeny: title", []) :=
  ((claim_C4 postBlogClass req4 (some (queryBag "x=1")) "title" rfl).2.1 rfl).2.2
    Nat (fun _ => FnOutcome.ok 0)

/-- C3: for a GET request with a non-empty query string (for a function
that consumes keyword data, the source's Step-1 guard), the argument bag is
`queryBag`, and the value bound for any key `k` is the **first** occurrence
of `k` in the parsed query pair list (`dlookup` on `parse_qsl` is
first-match by definition); all later values for the same key are
discarded. -/
theorem claim_C3 (c : Classification) (req : Request)
    (h1 : needsData c = true) (h2 : req.method = Method.GET)
    (h3 : req.query_string ≠ "") :
    step1 c req = Except.ok (some (queryBag req.query_string)) ∧
    ∀ k, dlookup (queryBag req.query_string) k =
      (dlookup (parse_qsl req.query_string) k).map PyVal.vstr :=
  ⟨step1_get c req h1 h2 h3, fun k => dlookup_queryBag req.query_string k⟩

/-- `GET /...?k=1&k=2`. -/
def repeatedKeyReq : Request :=
  { method := Method.GET, content_type := "", jsonBody := PyVal.vnull,
    postForm := [], query_string := "k=1&k=2", match_info := [] }

theorem claim_C3_witness :
    dlookup (queryBag repeatedKeyReq.query_string) "k" = some (PyVal.vstr "1") :=
  ((claim_C3 postBlogClass repeatedKeyReq rfl rfl (by decide)).2 "k").trans rfl

/-- All keyword-only parameters without a default are keyword-only
parameters: `requiredNamedParams ⊆ namedParams`. -/
theorem required_mem_named (ps : List Param) (x : String)
    (h : x ∈ get_required_kw_args ps) : x ∈ get_named_kw_args ps := by
  unfold get_required_kw_args at h
  unfold get_named_kw_args
  rcases List.mem_map.mp h with ⟨p, hp, he⟩
  rcases List.mem_filter.mp hp with ⟨hmem, hcond⟩
  simp only [Bool.and_eq_true, beq_iff_eq] at hcond
  exact List.mem_map.mpr ⟨p, List.mem_filter.mpr ⟨hmem, by simp [hcond.1]⟩, he⟩

/-- C10: a GET query key with a blank value (first occurrence `k=`) is
bound to the empty string, not omitted: the bag binds `k ↦ ""`, the key is
present in the final merged bag, and the required-argument check can never
fail on `k` (`__call__` cannot return `Missing argumeny: k`). -/
theorem claim_C10 (ps : List Param) (cl : Classification) (req : Request) (k : String)
    (hcl : classify ps = Except.ok cl)
    (h2 : req.method = Method.GET) (h3 : req.query_string ≠ "")
    (hk : k ∈ cl.requiredKwArgs)
    (hfirst : dlookup (parse_qsl req.query_string) k = some "") :
    dlookup (queryBag req.query_string) k = some (PyVal.vstr "") ∧
    dmem (finalBag cl req (some (queryBag req.query_string))) k = true ∧
    (∀ msg, (buildArgs cl req).1 = Except.error msg →
      msg ≠ "Missing argumeny: " ++ k) := by
  have hfields : cl.namedKwArgs = get_named_kw_args ps ∧
      cl.requiredKwArgs = get_required_kw_args ps := by
    unfold classify at hcl
    cases hra : has_request_arg ps with
    | error e => rw [hra] at hcl; exact absurd hcl (by simp)
    | ok hr =>
      rw [hra] at hcl
      have he := Except.ok.inj hcl
      constructor <;> rw [← he]
  have hkn : k ∈ cl.namedKwArgs := by
    rw [hfields.1]
    rw [hfields.2] at hk
    exact required_mem_named ps k hk
  have hneeds : needsData cl = true := by
    have hne : cl.requiredKwArgs ≠ [] := List.ne_nil_of_mem hk
    have hie : cl.requiredKwArgs.isEmpty = false := by
      cases hc : cl.requiredKwArgs with
      | nil => exact absurd hc hne
      | cons a t => rfl
    unfold needsData
    rw [hie]
    simp
  have hq : dlookup (queryBag req.query_string) k = some (PyVal.vstr "") := by
    rw [dlookup_queryBag, hfirst]
    rfl
  have hs1 : step1 cl req = Except.ok (some (queryBag req.query_string)) :=
    step1_get cl req hneeds h2 h3
  have hqm : dmem (queryBag req.query_string) k = true := by
    rw [dmem_eq_isSome_dlookup, hq]
    rfl
  have hx : dmem (if !cl.hasVarKwArg && !cl.namedKwArgs.isEmpty
      then shrinkTo cl.namedKwArgs (queryBag req.query_string)
      else queryBag req.query_string) k = true := by
    by_cases hg : (!cl.hasVarKwArg && !cl.namedKwArgs.isEmpty) = true
    · rw [if_pos hg]
      have hsh := shrinkAux_mem (queryBag req.query_string) cl.namedKwArgs [] k
        (PyVal.vstr "") hkn hq
      unfold shrinkTo
      rw [dmem_eq_isSome_dlookup, hsh]
      rfl
    · rw [if_neg hg]
      exact hqm
  have hbag2 : dmem (step2 cl req (some (queryBag req.query_string))).1 k = true := by
    unfold step2 overlayMatchInfo
    exact overlayAux_fst_dmem_mono req.match_info _ k hx
  have hfin : dmem (finalBag cl req (some (queryBag req.query_string))) k = true := by
    unfold finalBag step3
    cases hr : cl.hasRequestArg
    · simpa [hr] using hbag2
    · simp only [hr, if_true]
      exact dmem_dinsert_mono _ _ _ _ hbag2
  refine ⟨hq, hfin, ?_⟩
  intro msg hmsg hcontra
  cases hfm : firstMissing cl.requiredKwArgs
      (finalBag cl req (some (queryBag req.query_string))) with
  | none =>
    rw [buildArgs_step1_ok_none cl req _ hs1 hfm] at hmsg
    exact Except.noConfusion hmsg
  | some m =>
    rw [buildArgs_step1_ok_missing cl req _ m hs1 hfm] at hmsg
    have hm : "Missing argumeny: " ++ m = msg := Except.error.inj hmsg
    have hfm2 : List.find? (fun n => !dmem
        (finalBag cl req (some (queryBag req.query_string))) n) cl.requiredKwArgs
        = some m := hfm
    have hpm := List.find?_some hfm2
    simp only [Bool.not_eq_true'] at hpm
    have hmk : m ≠ k := by
      intro he
      rw [he, hfin] at hpm
      exact Bool.noConfusion hpm
    exact hmk (string_append_left_cancel "Missing argumeny: " m k (hm.trans hcontra))

/-- `GET /...?title=&x=1`. -/
def blankValueReq : Request :=
  { method := Method.GET, content_type := "", jsonBody := PyVal.vnull,
    postForm := [], query_string := "title=&x=1", match_info := [] }

theorem claim_C10_witness :
    dlookup (queryBag blankValueReq.query_string) "title" = some (PyVal.vstr "") ∧
    dmem (finalBag postBlogClass blankValueReq
      (some (queryBag blankValueReq.query_string))) "title" = true := by
  have h := claim_C10 postBlogSig postBlogClass blankValueReq "title" rfl rfl
    (by decide) (by decide) (by decide)
  exact ⟨h.1, h.2.1⟩

end Coroweb

namespace Coroweb

/-- The signature of `g(id, *, title=None)`: one named keyword parameter
`title`, no `**kw`. -/
def c2Sig : List Param :=
  [{ name := "id", kind := ParamKind.POSITIONAL_OR_KEYWORD, hasDefault := false },
   { name := "title", kind := ParamKind.KEYWORD_ONLY, hasDefault := true }]

/-- The classification of `c2Sig`. -/
def c2Class : Classification :=
  { hasRequestArg := false, hasVarKwArg := false, hasNamedKwArgs := true,
    namedKwArgs := ["title"], requiredKwArgs := [] }

/-- `POST /post/42` with JSON body `{"id": "x"}` and path variable
`id = "42"`: the body field `id` shares its name with the path variable. -/
def c2Req : Request :=
  { method := Method.POST, content_type := "application/json",
    jsonBody := PyVal.vdict [("id", PyVal.vstr "x")], postForm := [],
    query_string := "", match_info := [("id", "42")] }

/-- C2 counterexample: for `c2Class` and `c2Req` the decoded body bag
contains the field `id` and the path-variable mapping also binds `id`
(`"a path variable and a body/query field share a name"`), the final bound
value is the path variable's `"42"` — but **no** duplicate-name warning is
logged, because line 132's shrink to `namedKwArgs = ["title"]` drops the
body's `id` before the duplicate check at line 142 runs.  The warning log
of the whole call is `[]`. -/
theorem claim_C2_counterexample :
    classify c2Sig = Except.ok c2Class ∧
    step1 c2Class c2Req = Except.ok (some [("id", PyVal.vstr "x")]) ∧
    dmem [("id", PyVal.vstr "x")] "id" = true ∧
    c2Req.match_info = [("id", "42")] ∧
    dlookup (finalBag c2Class c2Req (some [("id", PyVal.vstr "x")])) "id"
      = some (PyVal.vstr "42") ∧
    (buildArgs c2Class c2Req).2 = [] :=
  ⟨rfl, rfl, rfl, rfl, rfl, rfl⟩

/-- C2 (amended): when a path variable `(k, v)` shares its name with a
field of the Step-1 bag, the value bound for `k` after the path-variable
overlay is always the path variable's value (path wins, last writer wins);
a duplicate-name warning is logged provided `k` is still present in the bag
the overlay starts from — that is, in the bag *after* the shrink to named
keyword parameters (when that shrink applies).  The counterexample above
shows the warning is not logged when the shrink has already dropped `k`. -/
theorem claim_C2_amended (c : Classification) (req : Request) (kw0 : Bag) (k v : String)
    (h1 : step1 c req = Except.ok (some kw0))
    (hshared : dmem kw0 k = true)
    (hmem : (k, v) ∈ req.match_info)
    (hnd : (req.match_info.map Prod.fst).Nodup) :
    dlookup (step2 c req (some kw0)).1 k = some (PyVal.vstr v) ∧
    (dmem (if !c.hasVarKwArg && !c.namedKwArgs.isEmpty
        then shrinkTo c.namedKwArgs kw0 else kw0) k = true →
      dupWarn k ∈ (step2 c req (some kw0)).2) := by
  constructor
  · exact overlayAux_fst_mem req.match_info
      ((if !c.hasVarKwArg && !c.namedKwArgs.isEmpty
        then shrinkTo c.namedKwArgs kw0 else kw0), []) k v hnd hmem
  · intro hx
    exact overlayAux_warn req.match_info
      ((if !c.hasVarKwArg && !c.namedKwArgs.isEmpty
        then shrinkTo c.namedKwArgs kw0 else kw0), []) k v hmem hx

/-- The classification of a handler `f(request, **kw)`. -/
def varKwClass : Classification :=
  { hasRequestArg := false, hasVarKwArg := true, hasNamedKwArgs := false,
    namedKwArgs := [], requiredKwArgs := [] }

theorem claim_C2_amended_witness :
    dlookup (step2 varKwClass c2Req (some [("id", PyVal.vstr "x")])).1 "id"
      = some (PyVal.vstr "42") ∧
    dupWarn "id" ∈ (step2 varKwClass c2Req (some [("id", PyVal.vstr "x")])).2 := by
  have h := claim_C2_amended varKwClass c2Req [("id", PyVal.vstr "x")] "id" "42"
    rfl rfl (by decide) (by decide)
  exact ⟨h.1, h.2 (by decide)⟩

/-- `has_request_arg` on `pre ++ request :: post` (no `request` in `pre`)
runs the found-flag loop on `post`. -/
theorem has_request_arg_split (pre post : List Param) (rp : Param)
    (hname : rp.name = "request")
    (hpre : ∀ p ∈ pre, p.name ≠ "request") :
    has_request_arg (pre ++ rp :: post) = hasRequestArgAux true post := by
  unfold has_request_arg
  rw [hasRequestArgAux_skip_pre pre (rp :: post) hpre]
  simp only [hasRequestArgAux]
  rw [if_pos hname]

/-- C7: for a function with a parameter named `request` (no earlier
parameter of that name): if every later parameter is keyword-only or the
catch-all `**kw`, classification succeeds and records `hasRequestArg`;
if any later parameter is a plain positional parameter, classification —
which `RequestHandler.__init__` runs once at registration, before any
request is handled — fails with the configuration error. -/
theorem claim_C7 (pre post : List Param) (rp : Param)
    (hname : rp.name = "request")
    (hpre : ∀ p ∈ pre, p.name ≠ "request") :
    ((∀ p ∈ post, p.kind = ParamKind.KEYWORD_ONLY ∨ p.kind = ParamKind.VAR_KEYWORD) →
      classify (pre ++ rp :: post) = Except.ok
        { hasRequestArg := true,
          hasVarKwArg := has_var_kw_arg (pre ++ rp :: post),
          hasNamedKwArgs := has_named_kw_args (pre ++ rp :: post),
          namedKwArgs := get_named_kw_args (pre ++ rp :: post),
          requiredKwArgs := get_required_kw_args (pre ++ rp :: post) }) ∧
    ((∃ q ∈ post, (q.kind = ParamKind.POSITIONAL_ONLY
        ∨ q.kind = ParamKind.POSITIONAL_OR_KEYWORD) ∧ q.name ≠ "request") →
      classify (pre ++ rp :: post) = Except.error requestOrderErr) := by
  have hbase := has_request_arg_split pre post rp hname hpre
  constructor
  · intro hall
    have hok : has_request_arg (pre ++ rp :: post) = Except.ok true := by
      rw [hbase]
      exact hasRequestArgAux_found_ok post (fun p hp => by
        rcases hall p hp with h | h
        · exact Or.inr (Or.inr (Or.inl h))
        · exact Or.inr (Or.inr (Or.inr h)))
    unfold classify
    rw [hok]
  · intro hex
    have herr : has_request_arg (pre ++ rp :: post) = Except.error requestOrderErr := by
      rw [hbase]
      exact hasRequestArgAux_found_error post hex
    unfold classify
    rw [herr]

/-- The parameter `request`. -/
def reqParam : Param :=
  { name := "request", kind := ParamKind.POSITIONAL_OR_KEYWORD, hasDefault := false }

/-- The keyword-only parameter `title`. -/
def titleParam : Param :=
  { name := "title", kind := ParamKind.KEYWORD_ONLY, hasDefault := false }

/-- The plain positional parameter `extra`. -/
def extraParam : Param :=
  { name := "extra", kind := ParamKind.POSITIONAL_OR_KEYWORD, hasDefault := false }

theorem claim_C7_witness :
    classify [reqParam, titleParam] = Except.ok
      { hasRequestArg := true, hasVarKwArg := false, hasNamedKwArgs := true,
        namedKwArgs := ["title"], requiredKwArgs := ["title"] } ∧
    classify [reqParam, extraParam] = Except.error requestOrderErr := by
  constructor
  · exact (claim_C7 [] [titleParam] reqParam rfl (by decide)).1 (by decide)
  · exact (claim_C7 [] [extraParam] reqParam rfl (by decide)).2
      ⟨extraParam, by decide, by decide, by decide⟩

/-- C9: a variadic positional parameter (`*args`) after `request` is
accepted by the ordering check of `has_request_arg` (line 81 explicitly
exempts `VAR_POSITIONAL`): classification succeeds for any mix of
`*args`, keyword-only and `**kw` parameters after `request`. -/
theorem claim_C9 (pre post : List Param) (rp : Param)
    (hname : rp.name = "request")
    (hpre : ∀ p ∈ pre, p.name ≠ "request")
    (hall : ∀ p ∈ post, p.kind = ParamKind.VAR_POSITIONAL
      ∨ p.kind = ParamKind.KEYWORD_ONLY ∨ p.kind = ParamKind.VAR_KEYWORD) :
    classify (pre ++ rp :: post) = Except.ok
      { hasRequestArg := true,
        hasVarKwArg := has_var_kw_arg (pre ++ rp :: post),
        hasNamedKwArgs := has_named_kw_args (pre ++ rp :: post),
        namedKwArgs := get_named_kw_args (pre ++ rp :: post),
        requiredKwArgs := get_required_kw_args (pre ++ rp :: post) } := by
  have hok : has_request_arg (pre ++ rp :: post) = Except.ok true := by
    rw [has_request_arg_split pre post rp hname hpre]
    exact hasRequestArgAux_found_ok post (fun p hp => Or.inr (hall p hp))
  unfold classify
  rw [hok]

/-- The variadic positional parameter `*args`. -/
def argsParam : Param :=
  { name := "args", kind := ParamKind.VAR_POSITIONAL, hasDefault := false }

theorem claim_C9_witness :
    classify [reqParam, argsParam] = Except.ok
      { hasRequestArg := true, hasVarKwArg := false, hasNamedKwArgs := false,
        namedKwArgs := [], requiredKwArgs := [] } :=
  claim_C9 [] [argsParam] reqParam rfl (by decide) (by decide)

/-- C8: when the function has named keyword parameters but no `**kw` and
Step 1 produced a bag, Step 2 first shrinks the bag to exactly the keys in
`namedKwArgs` — every key of the shrunk bag is a named parameter, keys not
in `namedKwArgs` are silently dropped, keys in `namedKwArgs` keep their
value — and only then overlays the path variables. -/
theorem claim_C8 (c : Classification) (req : Request) (kw : Bag)
    (h1 : step1 c req = Except.ok (some kw))
    (hv : c.hasVarKwArg = false) (hn : c.namedKwArgs ≠ []) :
    step2 c req (some kw) = overlayMatchInfo req.match_info (shrinkTo c.namedKwArgs kw) ∧
    (∀ n, n ∉ c.namedKwArgs → dlookup (shrinkTo c.namedKwArgs kw) n = none) ∧
    (∀ n, dmem (shrinkTo c.namedKwArgs kw) n = true → n ∈ c.namedKwArgs) ∧
    (∀ n v, n ∈ c.namedKwArgs → dlookup kw n = some v →
      dlookup (shrinkTo c.namedKwArgs kw) n = some v) := by
  have hie : c.namedKwArgs.isEmpty = false := by
    cases hc : c.namedKwArgs with
    | nil => exact absurd hc hn
    | cons a t => rfl
  refine ⟨?_, ?_, ?_, ?_⟩
  · unfold step2
    rw [hv, hie]
    rfl
  · intro n hnn
    unfold shrinkTo
    rw [shrinkAux_not_mem kw c.namedKwArgs [] n hnn]
    rfl
  · intro n hmem
    unfold shrinkTo at hmem
    rcases shrinkAux_keys kw c.namedKwArgs [] n hmem with h | h
    · exact h
    · exact absurd h (by simp [dmem])
  · intro n v hnm hl
    unfold shrinkTo
    exact shrinkAux_mem kw c.namedKwArgs [] n v hnm hl

/-- `POST` with JSON body `{"title": "T", "junk": "J"}` for
`f(id, *, title, content=None)`. -/
def extraKeyReq : Request :=
  { method := Method.POST, content_type := "application/json",
    jsonBody := PyVal.vdict [("title", PyVal.vstr "T"), ("junk", PyVal.vstr "J")],
    postForm := [], query_string := "", match_info := [("id", "9")] }

theorem claim_C8_witness :
    dlookup (shrinkTo postBlogClass.namedKwArgs
        [("title", PyVal.vstr "T"), ("junk", PyVal.vstr "J")]) "junk" = none ∧
    dlookup (shrinkTo postBlogClass.namedKwArgs
        [("title", PyVal.vstr "T"), ("junk", PyVal.vstr "J")]) "title"
      = some (PyVal.vstr "T") := by
  have h := claim_C8 postBlogClass extraKeyReq
    [("title", PyVal.vstr "T"), ("junk", PyVal.vstr "J")] rfl rfl (by decide)
  exact ⟨h.2.1 "junk" (by decide), h.2.2.2 "title" (PyVal.vstr "T") (by decide) rfl⟩

end Coroweb
